import Mathlib

/-!
Shallow embedding of the `apidoc` Go package (reflection.go, registry.go,
types.go) and proofs about it.

Modelling conventions:
- Go `map[string]T` values are modelled as association lists with an
  overwrite-in-place insertion (`insertA`); the in-memory Go map is
  unordered, the list order is a canonical representation of the insertion
  history.
- Go `reflect.Type` is modelled as a node identifier (`TypeId`) in a type
  environment (`TypeEnv`) mapping every identifier to the shape of that
  type (`TypeBody`).  Cyclic (self-referential) Go types are representable
  because the environment is an arbitrary function.
- The recursive reflection walk of the source has no termination guard, so
  it is embedded with an explicit fuel parameter; `none` means the walk did
  not complete within the given recursion budget.  The Go code simply never
  returns on inputs for which no amount of fuel suffices.
- Go `float64` values are modelled as exact rationals (`Rat`); no claim
  settled here depends on binary rounding, and `Inf`/`NaN` scan tokens are
  not modelled (no claim exercises them).
- A `none` result of the tag parser models the Go panic of the unchecked
  type assertion `schema["type"].(string)`; every call site of the source
  establishes that the key is present, which is proved below.
-/

namespace Apidoc

/-- JSON-like values stored in generated schemas (the `interface{}` values
of the Go schema maps). -/
inductive JVal : Type where
  | str (s : String)
  | int (n : Int)
  | float (q : Rat)
  | bool (b : Bool)
  | arr (xs : List JVal)
  | obj (fields : List (String × JVal))

/-- A JSON-Schema node: the Go `map[string]interface{}`. -/
abbrev Schema := List (String × JVal)

/-- Lookup in an association list modelling a Go map read. -/
def lookupA {α : Type} (k : String) : List (String × α) → Option α
  | [] => none
  | (k', v) :: rest => if k' = k then some v else lookupA k rest

/-- Go map assignment `m[k] = v`: overwrite in place, append when absent. -/
def insertA {α : Type} (k : String) (v : α) : List (String × α) → List (String × α)
  | [] => [(k, v)]
  | (k', v') :: rest => if k' = k then (k, v) :: rest else (k', v') :: insertA k v rest

/-- The `type` entry of a schema, when it is a string (else `""`). -/
def schemaTypeStr (s : Schema) : String :=
  match lookupA "type" s with
  | some (JVal.str k) => k
  | _ => ""

/-- Numeric value of a decimal digit character. -/
def digitVal (c : Char) : Nat := c.toNat - 48

/-- Value of a list of decimal digit characters. -/
def natOfDigits (ds : List Char) : Nat :=
  ds.foldl (fun a c => a * 10 + digitVal c) 0

/-- Models `fmt.Sscanf(s, "%d", &i)` from `parseIntHelper`: skip leading
spaces, optional sign, then the longest leading run of decimal digits; the
scan succeeds iff that run is nonempty and the value fits in a 64-bit
integer.  Trailing unconsumed input is ignored by `Sscanf`. -/
def goScanInt (s : String) : Option Int :=
  let cs := s.toList.dropWhile (fun c => c.isWhitespace)
  let p : Bool × List Char :=
    match cs with
    | '-' :: r => (true, r)
    | '+' :: r => (false, r)
    | _ => (false, cs)
  let ds := p.2.takeWhile (fun c => c.isDigit)
  if ds.isEmpty then none
  else
    let v : Int := (if p.1 then -1 else 1) * (natOfDigits ds : Int)
    if v < -(2 ^ 63) ∨ 2 ^ 63 ≤ v then none else some v

/-- Models `fmt.Sscanf(s, "%f", &f)` from `parseFloatHelper`: skip leading
spaces, optional sign, decimal mantissa (integer part, optional fraction),
optional exponent; fails when the mantissa has no digit or an exponent
marker has no digits.  The value is exact (see header note on `float64`). -/
def goScanFloat (s : String) : Option Rat :=
  let cs := s.toList.dropWhile (fun c => c.isWhitespace)
  let p : Bool × List Char :=
    match cs with
    | '-' :: r => (true, r)
    | '+' :: r => (false, r)
    | _ => (false, cs)
  let ip := p.2.takeWhile (fun c => c.isDigit)
  let cs2 := p.2.dropWhile (fun c => c.isDigit)
  let q : List Char × List Char :=
    match cs2 with
    | '.' :: r => (r.takeWhile (fun c => c.isDigit), r.dropWhile (fun c => c.isDigit))
    | _ => ([], cs2)
  if ip.isEmpty && q.1.isEmpty then none
  else
    let mant : Rat := ((natOfDigits (ip ++ q.1) : Nat) : Rat) / ((10 : Rat) ^ q.1.length)
    let base : Rat := if p.1 then -mant else mant
    match q.2 with
    | 'e' :: r | 'E' :: r =>
      let ep : Bool × List Char :=
        match r with
        | '-' :: rr => (true, rr)
        | '+' :: rr => (false, rr)
        | _ => (false, r)
      let ed := ep.2.takeWhile (fun c => c.isDigit)
      if ed.isEmpty then none
      else some (if ep.1 then base / (10 : Rat) ^ natOfDigits ed else base * (10 : Rat) ^ natOfDigits ed)
    | _ => some base

/-- `parseIntHelper` from reflection.go (via `fmt.Sscanf "%d"`). -/
def parseIntHelper (s : String) : Option Int := goScanInt s

/-- `parseFloatHelper` from reflection.go (via `fmt.Sscanf "%f"`). -/
def parseFloatHelper (s : String) : Option Rat := goScanFloat s

/-- `parseNumber` from reflection.go: integer first, then float, then the
literal string. -/
def parseNumber (s : String) : JVal :=
  match parseIntHelper s with
  | some n => JVal.int n
  | none =>
    match parseFloatHelper s with
    | some f => JVal.float f
    | none => JVal.str s

/-- `parseValue` from reflection.go: type-directed parsing of a
`default`/`example` literal.  For `integer` and `number` the Go code
returns the uninitialized zero value of the local variable, ignoring `s`. -/
def parseValue (s : String) (typ : String) : JVal :=
  if typ = "integer" then JVal.int 0
  else if typ = "number" then JVal.float 0
  else if typ = "boolean" then JVal.bool (s == "true")
  else JVal.str s

/-- Accumulating worker for `splitChar`. -/
def splitCharAux (sep : Char) : List Char → List Char → List String
  | [], acc => [String.mk acc.reverse]
  | c :: cs, acc =>
    if c = sep then String.mk acc.reverse :: splitCharAux sep cs []
    else splitCharAux sep cs (c :: acc)

/-- `strings.Split(s, sep)` for the single-character separators the source
uses (`,`, `|`); agrees with Go on the empty string (`[""]`). -/
def splitChar (sep : Char) (s : String) : List String :=
  splitCharAux sep s.toList []

/-- Worker for `splitN2`. -/
def splitN2Aux (sep : Char) : List Char → List Char → List String
  | [], acc => [String.mk acc.reverse]
  | c :: cs, acc =>
    if c = sep then [String.mk acc.reverse, String.mk cs]
    else splitN2Aux sep cs (c :: acc)

/-- `strings.SplitN(s, sep, 2)`: at most two pieces, split at the first
separator occurrence. -/
def splitN2 (sep : Char) (s : String) : List String :=
  splitN2Aux sep s.toList []

/-- `strings.TrimSpace`. -/
def trimChars (s : String) : String :=
  String.mk (((s.toList.dropWhile (fun c => c.isWhitespace)).reverse.dropWhile
    (fun c => c.isWhitespace)).reverse)

/-- The recognized keys of the `openapi` tag mini-language. -/
def recognizedKey (k : String) : Bool :=
  k == "enum" || k == "min" || k == "minimum" || k == "max" || k == "maximum" ||
  k == "minLength" || k == "maxLength" || k == "pattern" || k == "default" ||
  k == "description" || k == "format" || k == "example"

/-- One iteration of the token loop of `parseOpenAPITag`.  The state is the
field schema together with the required-name accumulator of the caller; `none`
models the panic of the type assertion `schema["type"].(string)`. -/
def tagStep (fieldName : String) (st : Schema × List String) (part0 : String) :
    Option (Schema × List String) :=
  let part := trimChars part0
  if part = "required" then some (st.1, st.2 ++ [fieldName])
  else
    let kv := splitN2 '=' part
    if kv.length = 2 then
      let key := trimChars (kv.headD "")
      let value := trimChars (kv.getD 1 "")
      match key with
      | "enum" =>
        some (insertA "enum" (JVal.arr ((splitChar '|' value).map JVal.str)) st.1, st.2)
      | "min" => some (insertA "minimum" (parseNumber value) st.1, st.2)
      | "minimum" => some (insertA "minimum" (parseNumber value) st.1, st.2)
      | "max" => some (insertA "maximum" (parseNumber value) st.1, st.2)
      | "maximum" => some (insertA "maximum" (parseNumber value) st.1, st.2)
      | "minLength" => some (insertA "minLength" (parseNumber value) st.1, st.2)
      | "maxLength" => some (insertA "maxLength" (parseNumber value) st.1, st.2)
      | "pattern" => some (insertA "pattern" (JVal.str value) st.1, st.2)
      | "default" =>
        match lookupA "type" st.1 with
        | some (JVal.str t) => some (insertA "default" (parseValue value t) st.1, st.2)
        | _ => none
      | "description" => some (insertA "description" (JVal.str value) st.1, st.2)
      | "format" => some (insertA "format" (JVal.str value) st.1, st.2)
      | "example" =>
        match lookupA "type" st.1 with
        | some (JVal.str t) => some (insertA "example" (parseValue value t) st.1, st.2)
        | _ => none
      | _ => some st
    else some st

/-- The token loop of `parseOpenAPITag` over an explicit token list. -/
def parseParts (fieldName : String) (parts : List String) (schema : Schema)
    (required : List String) : Option (Schema × List String) :=
  parts.foldlM (tagStep fieldName) (schema, required)

/-- `parseOpenAPITag` from reflection.go. -/
def parseOpenAPITag (tag : String) (schema : Schema) (required : List String)
    (fieldName : String) : Option (Schema × List String) :=
  parseParts fieldName (splitChar ',' tag) schema required

/-- A token the switch of `parseOpenAPITag` silently drops: neither `required`
nor a recognized `key=value` pair. -/
def junkPart (p : String) : Bool :=
  trimChars p != "required" &&
    (decide ((splitN2 '=' (trimChars p)).length ≠ 2) ||
      !(recognizedKey (trimChars ((splitN2 '=' (trimChars p)).headD ""))))

/-- Occurrences of the bare `required` token in a token list. -/
def requiredCount (parts : List String) : Nat :=
  (parts.filter (fun p => trimChars p == "required")).length

/-- Identifier of a Go type node (`reflect.Type` identity). -/
abbrev TypeId := Nat

/-- One struct field as seen through `reflect.StructField`. -/
structure FieldInfo : Type where
  exported : Bool
  jsonTag : String
  openapiTag : String
  docTag : String
  type : TypeId
deriving DecidableEq

/-- The shape of one type node after `Kind()` dispatch.  All integer widths
and signedness collapse to `int`, both float widths to `float`, slice and
array to `slice`; `other` stands for every kind the source maps to the
default branch (chan, func, interface, complex, ...). -/
inductive TypeBody : Type where
  | string
  | int
  | float
  | bool
  | struct (fields : List FieldInfo)
  | slice (elem : TypeId)
  | map (value : TypeId)
  | ptr (elem : TypeId)
  | other

/-- A Go type graph: every node identifier has a body; cycles are allowed. -/
abbrev TypeEnv := TypeId → TypeBody

/-- The field filter of `structToSchema`: exported, and the json tag is
neither empty nor `-`. -/
def fieldVisible (f : FieldInfo) : Bool :=
  f.exported && f.jsonTag != "" && f.jsonTag != "-"

/-- Serialization name: first segment of the json tag. -/
def fieldName (f : FieldInfo) : String :=
  (splitChar ',' f.jsonTag).headD ""

/-- Occurrences of the bare `required` token in the openapi tag of a field, as
executed (`parseOpenAPITag` is only called on a nonempty tag, and an empty
tag contributes no token either way). -/
def fieldRequiredCount (f : FieldInfo) : Nat :=
  requiredCount (splitChar ',' f.openapiTag)

def strSchema : Schema := [("type", JVal.str "string")]
def intSchema : Schema := [("type", JVal.str "integer")]
def numberSchema : Schema := [("type", JVal.str "number")]
def booleanSchema : Schema := [("type", JVal.str "boolean")]
def objectSchema : Schema := [("type", JVal.str "object")]

/-- Final schema assembled by `structToSchema` from the accumulated
properties and required names (`required` only when nonempty). -/
def structSchema (props : Schema) (required : List String) : Schema :=
  [("type", JVal.str "object"), ("properties", JVal.obj props)] ++
    (if required.length > 0 then [("required", JVal.arr (required.map JVal.str))] else [])

mutual

/-- `typeToSchema` from reflection.go.  The fuel bounds the recursion depth;
the Go function has no such bound and diverges where every fuel yields
`none`. -/
def typeToSchemaF (env : TypeEnv) : Nat → TypeId → Option Schema
  | 0, _ => none
  | fuel + 1, t =>
    match env t with
    | TypeBody.struct fields =>
      (structFieldsF env fuel fields [] []).map fun pr => structSchema pr.1 pr.2
    | TypeBody.slice e =>
      (typeToSchemaF env fuel e).map fun s =>
        [("type", JVal.str "array"), ("items", JVal.obj s)]
    | TypeBody.map v =>
      (typeToSchemaF env fuel v).map fun s =>
        [("type", JVal.str "object"), ("additionalProperties", JVal.obj s)]
    | TypeBody.string => some strSchema
    | TypeBody.int => some intSchema
    | TypeBody.float => some numberSchema
    | TypeBody.bool => some booleanSchema
    | TypeBody.ptr _ => some objectSchema
    | TypeBody.other => some objectSchema

/-- The field loop of `structToSchema`, accumulating the properties map and
the required names. -/
def structFieldsF (env : TypeEnv) : Nat → List FieldInfo → Schema → List String →
    Option (Schema × List String)
  | 0, _, _, _ => none
  | _ + 1, [], props, required => some (props, required)
  | fuel + 1, f :: fs, props, required =>
    if fieldVisible f then
      (typeToSchemaF env fuel f.type).bind fun fSchema =>
        (if f.openapiTag != "" then
            parseOpenAPITag f.openapiTag fSchema required (fieldName f)
          else some (fSchema, required)).bind fun st =>
          structFieldsF env fuel fs
            (insertA (fieldName f)
              (JVal.obj (if f.docTag != "" then
                insertA "description" (JVal.str f.docTag) st.1 else st.1)) props) st.2
    else structFieldsF env fuel fs props required

end

/-- The pointer-dereference loop at the top of `reflectToJSONSchema`
(`for t.Kind() == reflect.Ptr`), fuelled like the walk itself. -/
def derefPtrF (env : TypeEnv) : Nat → TypeId → Option TypeId
  | 0, _ => none
  | fuel + 1, t =>
    match env t with
    | TypeBody.ptr e => derefPtrF env fuel e
    | _ => some t

/-- `reflectToJSONSchema` from reflection.go: `none` input is a nil
interface value, `some t` a value of dynamic type `t`. -/
def reflectToJSONSchemaF (env : TypeEnv) (fuel : Nat) : Option TypeId → Option Schema
  | none => some objectSchema
  | some t => (derefPtrF env fuel t).bind (typeToSchemaF env fuel)

/-- Direct references of a type node, for the acyclicity notion of the
reflection walk. -/
def directRefs : TypeBody → List TypeId
  | TypeBody.struct fields => fields.map (fun f => f.type)
  | TypeBody.slice e => [e]
  | TypeBody.map v => [v]
  | TypeBody.ptr e => [e]
  | _ => []

/-- `a` is directly referenced by node `b` in the type graph. -/
def refStep (env : TypeEnv) (a b : TypeId) : Prop :=
  a ∈ directRefs (env b)

/-- `http.StatusText` from the Go standard library. -/
def statusText : Nat → String
  | 100 => "Continue"
  | 101 => "Switching Protocols"
  | 102 => "Processing"
  | 103 => "Early Hints"
  | 200 => "OK"
  | 201 => "Created"
  | 202 => "Accepted"
  | 203 => "Non-Authoritative Information"
  | 204 => "No Content"
  | 205 => "Reset Content"
  | 206 => "Partial Content"
  | 207 => "Multi-Status"
  | 208 => "Already Reported"
  | 226 => "IM Used"
  | 300 => "Multiple Choices"
  | 301 => "Moved Permanently"
  | 302 => "Found"
  | 303 => "See Other"
  | 304 => "Not Modified"
  | 305 => "Use Proxy"
  | 307 => "Temporary Redirect"
  | 308 => "Permanent Redirect"
  | 400 => "Bad Request"
  | 401 => "Unauthorized"
  | 402 => "Payment Required"
  | 403 => "Forbidden"
  | 404 => "Not Found"
  | 405 => "Method Not Allowed"
  | 406 => "Not Acceptable"
  | 407 => "Proxy Authentication Required"
  | 408 => "Request Timeout"
  | 409 => "Conflict"
  | 410 => "Gone"
  | 411 => "Length Required"
  | 412 => "Precondition Failed"
  | 413 => "Request Entity Too Large"
  | 414 => "Request URI Too Long"
  | 415 => "Unsupported Media Type"
  | 416 => "Requested Range Not Satisfiable"
  | 417 => "Expectation Failed"
  | 418 => "I\x27m a teapot"
  | 421 => "Misdirected Request"
  | 422 => "Unprocessable Entity"
  | 423 => "Locked"
  | 424 => "Failed Dependency"
  | 425 => "Too Early"
  | 426 => "Upgrade Required"
  | 428 => "Precondition Required"
  | 429 => "Too Many Requests"
  | 431 => "Request Header Fields Too Large"
  | 451 => "Unavailable For Legal Reasons"
  | 500 => "Internal Server Error"
  | 501 => "Not Implemented"
  | 502 => "Bad Gateway"
  | 503 => "Service Unavailable"
  | 504 => "Gateway Timeout"
  | 505 => "HTTP Version Not Supported"
  | 506 => "Variant Also Negotiates"
  | 507 => "Insufficient Storage"
  | 508 => "Loop Detected"
  | 510 => "Not Extended"
  | 511 => "Network Authentication Required"
  | _ => ""

/-- A response value of an endpoint: nil, a plain string, or a value of
dynamic type `t` (anything else). -/
inductive RespVal : Type where
  | nil
  | str (s : String)
  | typ (t : TypeId)

/-- `EndpointConfig` from types.go (the handler is not representable and
never read by the generators). -/
structure EndpointConfig : Type where
  method : String
  path : String
  summary : String := ""
  description : String := ""
  tags : List String := []
  requestBody : Option TypeId := none
  responses : List (Nat × RespVal) := []
  security : List String := []

structure OpenAPIInfo : Type where
  title : String := ""
  description : String := ""
  version : String := ""

/-- The registry state: endpoint list plus service info and base URL. -/
structure Registry : Type where
  endpoints : List EndpointConfig
  info : OpenAPIInfo := {}
  baseURL : String := ""

structure MediaTypeObj : Type where
  schema : Schema

structure RequestBodyObj : Type where
  required : Bool
  content : List (String × MediaTypeObj)

structure ResponseObj : Type where
  description : String
  content : Option (List (String × MediaTypeObj)) := none

structure Operation : Type where
  summary : String
  description : String
  tags : List String
  requestBody : Option RequestBodyObj
  responses : List (String × ResponseObj)
  security : List (List (String × List String))

structure PathItem : Type where
  get : Option Operation := none
  post : Option Operation := none
  put : Option Operation := none
  delete : Option Operation := none
  patch : Option Operation := none

def emptyPathItem : PathItem := {}

structure SecurityScheme : Type where
  type : String
  scheme : String := ""
  description : String := ""

/-- The shared `components.schemas` map of the generated document. -/
abbrev SchemasMap := List (String × Schema)

structure OpenAPISpec : Type where
  openapi : String
  info : OpenAPIInfo
  /-- Server URLs; the source only ever sets the URL of each server entry,
  so the description field of `OpenAPIServer` (always empty) is elided. -/
  servers : List String
  paths : List (String × PathItem)
  schemas : SchemasMap
  securitySchemes : List (String × SecurityScheme)

/-- One iteration of the response loop of `endpointToOperation`: produces
the key (`http.StatusText` of the code, verbatim) and the response object;
the `Response` fallback is applied to the description only. -/
def buildResponse (env : TypeEnv) (fuel : Nat) (code : Nat) (v : RespVal) :
    Option (String × ResponseObj) :=
  let statusStr := if statusText code = "" then "Response" else statusText code
  match v with
  | RespVal.nil => some (statusText code, { description := statusStr })
  | RespVal.str d => some (statusText code, { description := d })
  | RespVal.typ t =>
    (reflectToJSONSchemaF env fuel (some t)).map fun s =>
      (statusText code, { description := statusStr,
                          content := some [("application/json", { schema := s })] })

/-- `endpointToOperation` from registry.go.  The schemas map is received and
returned unchanged: the source passes it but never writes to it. -/
def endpointToOperation (env : TypeEnv) (fuel : Nat) (endpoint : EndpointConfig)
    (schemas : SchemasMap) : Option (Operation × SchemasMap) :=
  let rb : Option RequestBodyObj → Option (Operation × SchemasMap) := fun requestBody =>
    (endpoint.responses.foldlM (fun acc cr =>
        (buildResponse env fuel cr.1 cr.2).map fun kr => insertA kr.1 kr.2 acc) []).map
      fun responses =>
        ({ summary := endpoint.summary, description := endpoint.description,
           tags := endpoint.tags, requestBody := requestBody, responses := responses,
           security := endpoint.security.map fun scheme => [(scheme, ([] : List String))] },
         schemas)
  match endpoint.requestBody with
  | none => rb none
  | some t =>
    (reflectToJSONSchemaF env fuel (some t)).bind fun s =>
      rb (some { required := true, content := [("application/json", { schema := s })] })

/-- The method switch of `GenerateOpenAPI`: unrecognized methods leave the
path item unchanged. -/
def assignMethod (pathItem : PathItem) (method : String) (op : Operation) : PathItem :=
  if method = "GET" then { pathItem with get := some op }
  else if method = "POST" then { pathItem with post := some op }
  else if method = "PUT" then { pathItem with put := some op }
  else if method = "DELETE" then { pathItem with delete := some op }
  else if method = "PATCH" then { pathItem with patch := some op }
  else pathItem

/-- The recognized methods of that switch. -/
def recognizedMethod (m : String) : Bool :=
  m == "GET" || m == "POST" || m == "PUT" || m == "DELETE" || m == "PATCH"

/-- The endpoint loop of `GenerateOpenAPI`: builds the paths map and threads
the shared schemas map. -/
def pathsFold (env : TypeEnv) (fuel : Nat) :
    List EndpointConfig → List (String × PathItem) → SchemasMap →
    Option (List (String × PathItem) × SchemasMap)
  | [], paths, schemas => some (paths, schemas)
  | endpoint :: rest, paths, schemas =>
    (endpointToOperation env fuel endpoint schemas).bind fun osch =>
      pathsFold env fuel rest
        (insertA endpoint.path
          (assignMethod ((lookupA endpoint.path paths).getD emptyPathItem)
            endpoint.method osch.1) paths) osch.2

def mTLSScheme : SecurityScheme :=
  { type := "mutualTLS",
    description := "Mutual TLS authentication with client certificates" }

def bearerScheme : SecurityScheme :=
  { type := "http", scheme := "bearer",
    description := "JWT Bearer token authentication (ADR-031: OAuth2 scopes validated against AuthorizationElements)" }

/-- `GenerateOpenAPI` from registry.go, as a function of the registry
snapshot. -/
def GenerateOpenAPI (env : TypeEnv) (fuel : Nat) (reg : Registry) : Option OpenAPISpec :=
  (pathsFold env fuel reg.endpoints [] []).map fun pr =>
    { openapi := "3.0.0", info := reg.info, servers := [reg.baseURL],
      paths := pr.1, schemas := pr.2,
      securitySchemes := insertA "Bearer" bearerScheme (insertA "mTLS" mTLSScheme []) }

structure RequestBodySchemaObj : Type where
  contentType : String
  schema : Schema
  required : Bool

structure ResponseSchemaObj : Type where
  description : String
  contentType : String
  schema : Option Schema := none

structure APIEndpoint : Type where
  method : String
  path : String
  summary : String
  description : String
  tags : List String
  requestBody : Option RequestBodySchemaObj
  responses : List (String × ResponseSchemaObj)

structure APIDescription : Type where
  serviceName : String
  version : String
  baseURL : String
  endpoints : List APIEndpoint

/-- One iteration of the response loop of `GenerateAPIDescription`. -/
def buildResponseSchema (env : TypeEnv) (fuel : Nat) (code : Nat) (v : RespVal) :
    Option (String × ResponseSchemaObj) :=
  let statusStr := if statusText code = "" then "Response" else statusText code
  match v with
  | RespVal.nil => some (statusText code, { description := statusStr, contentType := "application/json" })
  | RespVal.str d => some (statusText code, { description := d, contentType := "text/plain" })
  | RespVal.typ t =>
    (reflectToJSONSchemaF env fuel (some t)).map fun s =>
      (statusText code, { description := statusStr, contentType := "application/json",
                          schema := some s })

/-- The endpoint conversion of `GenerateAPIDescription`. -/
def endpointToAPIEndpoint (env : TypeEnv) (fuel : Nat) (endpoint : EndpointConfig) :
    Option APIEndpoint :=
  let rb : Option RequestBodySchemaObj → Option APIEndpoint := fun requestBody =>
    (endpoint.responses.foldlM (fun acc cr =>
        (buildResponseSchema env fuel cr.1 cr.2).map fun kr => insertA kr.1 kr.2 acc) []).map
      fun responses =>
        { method := endpoint.method, path := endpoint.path, summary := endpoint.summary,
          description := endpoint.description, tags := endpoint.tags,
          requestBody := requestBody, responses := responses }
  match endpoint.requestBody with
  | none => rb none
  | some t =>
    (reflectToJSONSchemaF env fuel (some t)).bind fun s =>
      rb (some { contentType := "application/json", schema := s, required := true })

/-- `GenerateAPIDescription` from registry.go. -/
def GenerateAPIDescription (env : TypeEnv) (fuel : Nat) (reg : Registry) :
    Option APIDescription :=
  (reg.endpoints.mapM (endpointToAPIEndpoint env fuel)).map fun eps =>
    { serviceName := reg.info.title, version := reg.info.version,
      baseURL := reg.baseURL, endpoints := eps }

/-- Serialization names of the visible fields, in declaration order. -/
def visibleNames (fields : List FieldInfo) : List String :=
  (fields.filter fieldVisible).map fieldName

/-- Required-name contribution of a field list, one entry per occurrence of
the bare `required` token of a visible field. -/
def requiredOfFields (fields : List FieldInfo) : List String :=
  fields.foldr
    (fun f acc =>
      (if fieldVisible f then List.replicate (fieldRequiredCount f) (fieldName f) else []) ++ acc)
    []

/-- Names of the visible fields that carry the `required` token. -/
def requiredNames (fields : List FieldInfo) : List String :=
  (fields.filter (fun f => fieldVisible f && decide (fieldRequiredCount f ≠ 0))).map fieldName

/-- A type environment with no structured types at all. -/
def envOther : TypeEnv := fun _ => TypeBody.other

/-- The single field of the self-referential record below. -/
def cyclField : FieldInfo :=
  { exported := true, jsonTag := "children", openapiTag := "", docTag := "", type := 1 }

/-- A self-referential record: node 0 is a record whose only field is a
sequence (node 1) of node 0 itself — `type Node struct { Children []Node }`. -/
def cyclEnv : TypeEnv := fun t =>
  if t = 0 then TypeBody.struct [cyclField]
  else if t = 1 then TypeBody.slice 0
  else TypeBody.other

/-- An acyclic environment: node 1 is a sequence of strings. -/
def accEnv : TypeEnv := fun t => if t = 1 then TypeBody.slice 0 else TypeBody.string

/-- Node 2 is a record with one field of type pointer-to-string (node 1
points to node 0). -/
def ptrFieldEnv : TypeEnv := fun t =>
  if t = 2 then
    TypeBody.struct [{ exported := true, jsonTag := "name", openapiTag := "", docTag := "", type := 1 }]
  else if t = 1 then TypeBody.ptr 0
  else TypeBody.string

/-- Node 0 is a record with one string field named `id`. -/
def recEnv : TypeEnv := fun t =>
  if t = 0 then
    TypeBody.struct [{ exported := true, jsonTag := "id", openapiTag := "", docTag := "", type := 1 }]
  else TypeBody.string

/-- The endpoint of the claimed example: POST /x with a 201 record response
and a 400 plain-string response. -/
def c4Endpoint : EndpointConfig :=
  { method := "POST", path := "/x",
    responses := [(201, RespVal.typ 0), (400, RespVal.str "Invalid request")] }

/-- An endpoint declaring a response under the unassigned status code 599. -/
def c4BadEndpoint : EndpointConfig :=
  { method := "POST", path := "/y", responses := [(599, RespVal.typ 1)] }

/-- Two visible fields sharing the serialization name `a`. -/
def dupFields : List FieldInfo :=
  [{ exported := true, jsonTag := "a", openapiTag := "", docTag := "", type := 0 },
   { exported := true, jsonTag := "a", openapiTag := "", docTag := "", type := 0 }]

def dupEnv : TypeEnv := fun t => if t = 9 then TypeBody.struct dupFields else TypeBody.string

/-- Two visible fields `a` (required) and `b`, both strings. -/
def c5Fields : List FieldInfo :=
  [{ exported := true, jsonTag := "a", openapiTag := "required", docTag := "", type := 0 },
   { exported := true, jsonTag := "b", openapiTag := "", docTag := "", type := 0 }]

def c5Env : TypeEnv := fun t => if t = 9 then TypeBody.struct c5Fields else TypeBody.string

/-- An endpoint with an unrecognized HTTP method. -/
def fooEndpoint : EndpointConfig := { method := "FOO", path := "/x" }

def c8Reg : Registry := { endpoints := [fooEndpoint] }

def c8EmptyReg : Registry := { endpoints := [] }

def c10Reg : Registry := { endpoints := [c4Endpoint] }

/-! ### Association list lemmas -/

theorem lookupA_insertA_self {α : Type} (k : String) (v : α) (m : List (String × α)) :
    lookupA k (insertA k v m) = some v := by
  induction m with
  | nil => simp [insertA, lookupA]
  | cons hd tl ih =>
    by_cases h : hd.1 = k
    · simp [insertA, lookupA, h]
    · simpa [insertA, lookupA, h] using ih

theorem lookupA_insertA_ne {α : Type} {k k' : String} (h : k' ≠ k) (v : α)
    (m : List (String × α)) : lookupA k (insertA k' v m) = lookupA k m := by
  induction m with
  | nil => simp [insertA, lookupA, h]
  | cons hd tl ih =>
    by_cases h2 : hd.1 = k'
    · simp [insertA, lookupA, h2, h]
    · by_cases h3 : hd.1 = k
      · simp [insertA, lookupA, h2, h3, Ne.symm h]
      · simpa [insertA, lookupA, h2, h3] using ih

theorem keys_insertA {α : Type} {k : String} (v : α) {m : List (String × α)}
    (h : lookupA k m = none) :
    (insertA k v m).map Prod.fst = m.map Prod.fst ++ [k] := by
  induction m with
  | nil => simp [insertA]
  | cons hd tl ih =>
    by_cases h2 : hd.1 = k
    · simp [lookupA, h2] at h
    · simp only [lookupA, h2, if_false] at h
      simp [insertA, h2, ih h]

/-! ### Tag parsing lemmas -/

theorem tagStep_shape {fn : String} {st st' : Schema × List String} {p : String}
    (h : tagStep fn st p = some st') :
    (st'.1 = st.1 ∨ ∃ k v, k ≠ "type" ∧ st'.1 = insertA k v st.1) ∧
      st'.2 = st.2 ++ (if trimChars p = "required" then [fn] else []) := by
  simp only [tagStep] at h
  split at h
  next h1 =>
    injection h with h2
    subst h2
    exact ⟨Or.inl rfl, by simp [h1]⟩
  next h1 =>
    split at h
    · split at h
      all_goals first
        | exact Option.noConfusion h
        | (injection h with h2; subst h2; exact ⟨Or.inl rfl, by simp [h1]⟩)
        | (injection h with h2; subst h2;
           exact ⟨Or.inr ⟨_, _, by decide, rfl⟩, by simp [h1]⟩)
        | (split at h
           all_goals first
             | exact Option.noConfusion h
             | (injection h with h2; subst h2;
                exact ⟨Or.inr ⟨_, _, by decide, rfl⟩, by simp [h1]⟩))
    · injection h with h2
      subst h2
      exact ⟨Or.inl rfl, by simp [h1]⟩

theorem tagStep_isSome (fn : String) (st : Schema × List String) (p : String)
    (hty : ∃ ty, lookupA "type" st.1 = some (JVal.str ty)) :
    (tagStep fn st p).isSome := by
  obtain ⟨ty, hty⟩ := hty
  simp only [tagStep]
  split
  · simp
  · split
    · split
      all_goals simp_all
    · simp

theorem tagStep_junk {fn : String} {st : Schema × List String} {p : String}
    (hj : junkPart p = true) : tagStep fn st p = some st := by
  simp only [junkPart, Bool.and_eq_true, bne_iff_ne, ne_eq, Bool.or_eq_true,
    decide_eq_true_eq, Bool.not_eq_true] at hj
  obtain ⟨h1, h2⟩ := hj
  simp only [tagStep]
  rw [if_neg h1]
  split
  next hlen =>
    rcases h2 with h2 | h2
    · exact absurd hlen h2
    · split
      all_goals simp_all [recognizedKey]
  next => rfl

theorem requiredCount_cons (p : String) (ps : List String) :
    requiredCount (p :: ps) =
      (if trimChars p = "required" then 1 else 0) + requiredCount ps := by
  simp only [requiredCount, List.filter_cons]
  split <;> simp_all [Nat.add_comm]

theorem parseParts_snd {fn : String} : ∀ (parts : List String) (s : Schema)
    (req : List String) (out : Schema × List String),
    parseParts fn parts s req = some out →
    out.2 = req ++ List.replicate (requiredCount parts) fn := by
  intro parts
  induction parts with
  | nil =>
    intro s req out h
    simp only [parseParts, List.foldlM_nil, Option.pure_def, Option.some.injEq] at h
    simp [← h, requiredCount]
  | cons p ps ih =>
    intro s req out h
    simp only [parseParts, List.foldlM_cons] at h
    cases hstep : tagStep fn (s, req) p with
    | none => rw [hstep] at h; exact Option.noConfusion h
    | some st1 =>
      rw [hstep] at h
      simp only [Option.bind_eq_bind, Option.some_bind] at h
      have h2 := ih st1.1 st1.2 out h
      have h3 := (tagStep_shape hstep).2
      rw [requiredCount_cons, List.replicate_add, h2, h3]
      by_cases hr : trimChars p = "required" <;> simp [hr]

theorem parseParts_fst_type {fn : String} : ∀ (parts : List String) (s : Schema)
    (req : List String) (out : Schema × List String),
    parseParts fn parts s req = some out →
    lookupA "type" out.1 = lookupA "type" s := by
  intro parts
  induction parts with
  | nil =>
    intro s req out h
    simp only [parseParts, List.foldlM_nil, Option.pure_def, Option.some.injEq] at h
    simp [← h]
  | cons p ps ih =>
    intro s req out h
    simp only [parseParts, List.foldlM_cons] at h
    cases hstep : tagStep fn (s, req) p with
    | none => rw [hstep] at h; exact Option.noConfusion h
    | some st1 =>
      rw [hstep] at h
      simp only [Option.bind_eq_bind, Option.some_bind] at h
      have h2 := ih st1.1 st1.2 out h
      rw [h2]
      rcases (tagStep_shape hstep).1 with he | ⟨k, v, hk, he⟩
      · rw [he]
      · rw [he, lookupA_insertA_ne hk]

theorem parseParts_isSome (fn : String) : ∀ (parts : List String) (s : Schema)
    (req : List String), (∃ ty, lookupA "type" s = some (JVal.str ty)) →
    (parseParts fn parts s req).isSome := by
  intro parts
  induction parts with
  | nil => intro s req _; simp [parseParts]
  | cons p ps ih =>
    intro s req hty
    have hstep := tagStep_isSome fn (s, req) p hty
    obtain ⟨st1, hst1⟩ := Option.isSome_iff_exists.mp hstep
    simp only [parseParts, List.foldlM_cons, hst1, Option.bind_eq_bind, Option.some_bind]
    apply ih st1.1 st1.2
    rcases (tagStep_shape hst1).1 with he | ⟨k, v, hk, he⟩
    · rw [he]; exact hty
    · rw [he, lookupA_insertA_ne hk]; exact hty

theorem parseParts_filter_junk {fn : String} : ∀ (parts : List String) (s : Schema)
    (req : List String),
    parseParts fn (parts.filter (fun p => !(junkPart p))) s req =
      parseParts fn parts s req := by
  intro parts
  induction parts with
  | nil => intro s req; rfl
  | cons p ps ih =>
    intro s req
    by_cases hj : junkPart p = true
    · simp only [List.filter_cons, hj, Bool.not_true, if_neg (by simp : ¬(false = true))]
      simp only [parseParts, List.foldlM_cons, tagStep_junk hj, Option.bind_eq_bind,
        Option.some_bind]
      exact ih s req
    · simp only [Bool.not_eq_true] at hj
      have hfil : List.filter (fun q => !junkPart q) (p :: ps) =
          p :: List.filter (fun q => !junkPart q) ps := by
        simp [List.filter_cons, hj]
      rw [hfil]
      simp only [parseParts, List.foldlM_cons]
      cases hstep : tagStep fn (s, req) p with
      | none => simp [hstep]
      | some st1 =>
        simp only [hstep, Option.bind_eq_bind, Option.some_bind]
        exact ih st1.1 st1.2

/-! ### Fuel monotonicity of the reflection walk -/

theorem reflect_mono (env : TypeEnv) : ∀ n : Nat,
    (∀ t s m, n ≤ m → typeToSchemaF env n t = some s → typeToSchemaF env m t = some s) ∧
    (∀ fields props req out m, n ≤ m → structFieldsF env n fields props req = some out →
      structFieldsF env m fields props req = some out) := by
  intro n
  induction n with
  | zero =>
    refine ⟨fun t s m _ h => Option.noConfusion h,
            fun fields props req out m _ h => Option.noConfusion h⟩
  | succ n ih =>
    constructor
    · intro t s m hm h
      obtain ⟨m', rfl⟩ : ∃ m', m = m' + 1 := ⟨m - 1, by omega⟩
      have hm' : n ≤ m' := by omega
      simp only [typeToSchemaF] at h ⊢
      cases henv : env t <;> simp only [henv] at h ⊢
      case struct fields =>
        cases hsf : structFieldsF env n fields [] [] with
        | none => rw [hsf] at h; exact Option.noConfusion h
        | some pr =>
          rw [hsf] at h
          rw [ih.2 fields [] [] pr m' hm' hsf]
          exact h
      case slice e =>
        cases hts : typeToSchemaF env n e with
        | none => rw [hts] at h; exact Option.noConfusion h
        | some s' =>
          rw [hts] at h
          rw [ih.1 e s' m' hm' hts]
          exact h
      case map v =>
        cases hts : typeToSchemaF env n v with
        | none => rw [hts] at h; exact Option.noConfusion h
        | some s' =>
          rw [hts] at h
          rw [ih.1 v s' m' hm' hts]
          exact h
      all_goals exact h
    · intro fields props req out m hm h
      obtain ⟨m', rfl⟩ : ∃ m', m = m' + 1 := ⟨m - 1, by omega⟩
      have hm' : n ≤ m' := by omega
      cases fields with
      | nil => simpa [structFieldsF] using h
      | cons f fs =>
        simp only [structFieldsF] at h ⊢
        by_cases hv : fieldVisible f = true
        · simp only [hv, if_true] at h ⊢
          cases hts : typeToSchemaF env n f.type with
          | none => rw [hts] at h; exact Option.noConfusion h
          | some fS =>
            rw [hts] at h
            rw [ih.1 f.type fS m' hm' hts]
            simp only [Option.some_bind] at h ⊢
            cases hp : (if f.openapiTag != "" then
                parseOpenAPITag f.openapiTag fS req (fieldName f)
              else some (fS, req)) with
            | none => rw [hp] at h; exact Option.noConfusion h
            | some st =>
              rw [hp] at h
              simp only [Option.some_bind] at h ⊢
              exact ih.2 fs _ st.2 out m' hm' h
        · simp only [hv, if_false] at h ⊢
          exact ih.2 fs props req out m' hm' h

theorem typeToSchemaF_mono {env : TypeEnv} {n m : Nat} {t : TypeId} {s : Schema}
    (hm : n ≤ m) (h : typeToSchemaF env n t = some s) : typeToSchemaF env m t = some s :=
  (reflect_mono env n).1 t s m hm h

theorem structFieldsF_mono {env : TypeEnv} {n m : Nat} {fields : List FieldInfo}
    {props : Schema} {req : List String} {out : Schema × List String}
    (hm : n ≤ m) (h : structFieldsF env n fields props req = some out) :
    structFieldsF env m fields props req = some out :=
  (reflect_mono env n).2 fields props req out m hm h

theorem derefPtrF_mono (env : TypeEnv) : ∀ (n : Nat) (t t' : TypeId) (m : Nat), n ≤ m →
    derefPtrF env n t = some t' → derefPtrF env m t = some t' := by
  intro n
  induction n with
  | zero => exact fun t t' m _ h => Option.noConfusion h
  | succ n ih =>
    intro t t' m hm h
    obtain ⟨m', rfl⟩ : ∃ m', m = m' + 1 := ⟨m - 1, by omega⟩
    simp only [derefPtrF] at h ⊢
    cases henv : env t <;> simp only [henv] at h ⊢
    case ptr e => exact ih e t' m' (by omega) h
    all_goals exact h

/-! ### Shape and termination of the reflection walk -/

theorem typeToSchemaF_type_key {env : TypeEnv} {n : Nat} {t : TypeId} {s : Schema}
    (h : typeToSchemaF env n t = some s) : ∃ k, lookupA "type" s = some (JVal.str k) := by
  cases n with
  | zero => exact Option.noConfusion h
  | succ n =>
    simp only [typeToSchemaF] at h
    cases henv : env t <;> simp only [henv] at h
    case struct fields =>
      cases hsf : structFieldsF env n fields [] [] with
      | none => rw [hsf] at h; exact Option.noConfusion h
      | some pr =>
        rw [hsf] at h
        simp only [Option.map_some', Option.some.injEq] at h
        subst h
        exact ⟨"object", rfl⟩
    case slice e =>
      cases hts : typeToSchemaF env n e with
      | none => rw [hts] at h; exact Option.noConfusion h
      | some s' =>
        rw [hts] at h
        simp only [Option.map_some', Option.some.injEq] at h
        subst h
        exact ⟨"array", rfl⟩
    case map v =>
      cases hts : typeToSchemaF env n v with
      | none => rw [hts] at h; exact Option.noConfusion h
      | some s' =>
        rw [hts] at h
        simp only [Option.map_some', Option.some.injEq] at h
        subst h
        exact ⟨"object", rfl⟩
    all_goals (injection h with h2; subst h2; exact ⟨_, rfl⟩)

theorem structFieldsF_exists {env : TypeEnv} : ∀ (fields : List FieldInfo),
    (∀ f ∈ fields, fieldVisible f = true → ∃ n s, typeToSchemaF env n f.type = some s) →
    ∀ (props : Schema) (req : List String),
    ∃ N out, structFieldsF env N fields props req = some out := by
  intro fields
  induction fields with
  | nil => exact fun _ props req => ⟨1, (props, req), rfl⟩
  | cons f fs ih =>
    intro hall props req
    by_cases hv : fieldVisible f = true
    · obtain ⟨n1, s1, hs1⟩ := hall f (by simp) hv
      have hty := typeToSchemaF_type_key hs1
      have hparse : ∃ st, (if f.openapiTag != "" then
          parseOpenAPITag f.openapiTag s1 req (fieldName f)
        else some (s1, req)) = some st := by
        split
        · exact Option.isSome_iff_exists.mp
            (parseParts_isSome (fieldName f) (splitChar ',' f.openapiTag) s1 req hty)
        · exact ⟨(s1, req), rfl⟩
      obtain ⟨st, hst⟩ := hparse
      obtain ⟨N2, out, hout⟩ := ih (fun g hg hvg => hall g (by simp [hg]) hvg)
        (insertA (fieldName f)
          (JVal.obj (if f.docTag != "" then
            insertA "description" (JVal.str f.docTag) st.1 else st.1)) props) st.2
      refine ⟨max n1 N2 + 1, out, ?_⟩
      simp only [structFieldsF, hv, if_true]
      rw [typeToSchemaF_mono (le_max_left n1 N2) hs1]
      simp only [Option.some_bind]
      rw [hst]
      simp only [Option.some_bind]
      exact structFieldsF_mono (le_max_right n1 N2) hout
    · have hv' : fieldVisible f = false := by revert hv; cases fieldVisible f <;> simp
      obtain ⟨N2, out, hout⟩ := ih (fun g hg hvg => hall g (by simp [hg]) hvg) props req
      refine ⟨N2 + 1, out, ?_⟩
      simp only [structFieldsF, hv', Bool.false_eq_true, if_false]
      exact hout

theorem typeToSchemaF_exists {env : TypeEnv} : ∀ (t : TypeId), Acc (refStep env) t →
    ∃ n s, typeToSchemaF env n t = some s := by
  intro t hacc
  induction hacc with
  | intro t hstep ih =>
    cases henv : env t
    case struct fields =>
      have hall : ∀ f ∈ fields, fieldVisible f = true →
          ∃ n s, typeToSchemaF env n f.type = some s := by
        intro f hf _
        refine ih f.type ?_
        simp only [refStep, henv, directRefs, List.mem_map]
        exact ⟨f, hf, rfl⟩
      obtain ⟨N, out, hout⟩ := structFieldsF_exists fields hall [] []
      exact ⟨N + 1, structSchema out.1 out.2, by simp [typeToSchemaF, henv, hout]⟩
    case slice e =>
      obtain ⟨n, s, hs⟩ := ih e (by simp [refStep, henv, directRefs])
      exact ⟨n + 1, [("type", JVal.str "array"), ("items", JVal.obj s)],
        by simp [typeToSchemaF, henv, hs]⟩
    case map v =>
      obtain ⟨n, s, hs⟩ := ih v (by simp [refStep, henv, directRefs])
      exact ⟨n + 1, [("type", JVal.str "object"), ("additionalProperties", JVal.obj s)],
        by simp [typeToSchemaF, henv, hs]⟩
    case string => exact ⟨1, strSchema, by simp [typeToSchemaF, henv]⟩
    case int => exact ⟨1, intSchema, by simp [typeToSchemaF, henv]⟩
    case float => exact ⟨1, numberSchema, by simp [typeToSchemaF, henv]⟩
    case bool => exact ⟨1, booleanSchema, by simp [typeToSchemaF, henv]⟩
    case ptr e => exact ⟨1, objectSchema, by simp [typeToSchemaF, henv]⟩
    case other => exact ⟨1, objectSchema, by simp [typeToSchemaF, henv]⟩

theorem derefPtrF_exists {env : TypeEnv} : ∀ (t : TypeId), Acc (refStep env) t →
    ∃ n t', derefPtrF env n t = some t' ∧ Acc (refStep env) t' := by
  intro t hacc
  induction hacc with
  | intro t hstep ih =>
    cases henv : env t
    case ptr e =>
      obtain ⟨n, t', h1, h2⟩ := ih e (by simp [refStep, henv, directRefs])
      exact ⟨n + 1, t', by simp [derefPtrF, henv, h1], h2⟩
    all_goals exact ⟨1, t, by simp [derefPtrF, henv], Acc.intro t hstep⟩

theorem reflectToJSONSchemaF_exists {env : TypeEnv} (t : TypeId)
    (hacc : Acc (refStep env) t) :
    ∃ n s, reflectToJSONSchemaF env n (some t) = some s := by
  obtain ⟨n1, t', hd, hacc2⟩ := derefPtrF_exists t hacc
  obtain ⟨n2, s, hs⟩ := typeToSchemaF_exists t' hacc2
  refine ⟨max n1 n2, s, ?_⟩
  simp only [reflectToJSONSchemaF]
  rw [derefPtrF_mono env n1 t t' (max n1 n2) (le_max_left _ _) hd]
  simpa only [Option.some_bind] using typeToSchemaF_mono (le_max_right n1 n2) hs

theorem cyclEnv_none : ∀ n : Nat,
    typeToSchemaF cyclEnv n 0 = none ∧ typeToSchemaF cyclEnv n 1 = none ∧
    (∀ props req, structFieldsF cyclEnv n [cyclField] props req = none) := by
  intro n
  induction n using Nat.strong_induction_on with
  | _ n ih =>
    match n with
    | 0 => exact ⟨rfl, rfl, fun _ _ => rfl⟩
    | n + 1 =>
      refine ⟨?_, ?_, ?_⟩
      · have h := (ih n (by omega)).2.2
        simp [typeToSchemaF, cyclEnv, h]
      · have h := (ih n (by omega)).1
        simp [typeToSchemaF, cyclEnv, h]
      · intro props req
        have h := (ih n (by omega)).2.1
        have hv : fieldVisible cyclField = true := rfl
        have ht : cyclField.type = 1 := rfl
        simp only [structFieldsF, hv, if_true, ht, h, Option.none_bind]

/-- C2 counterexample: the reflector is not total.  On the self-referential
record type `Node (children []Node)` the walk never completes: no recursion
budget suffices, which models the unbounded recursion of the Go source on
that input. -/
theorem c2_reflect_diverges_on_self_referential_type :
    ¬ ∃ fuel s, reflectToJSONSchemaF cyclEnv fuel (some 0) = some s := by
  rintro ⟨fuel, s, h⟩
  cases fuel with
  | zero => simp [reflectToJSONSchemaF, derefPtrF] at h
  | succ m =>
    have h0 : derefPtrF cyclEnv (m + 1) 0 = some 0 := by simp [derefPtrF, cyclEnv]
    simp only [reflectToJSONSchemaF, h0, Option.some_bind] at h
    rw [(cyclEnv_none (m + 1)).1] at h
    exact Option.noConfusion h

/-- C2 amended: the reflector terminates and returns a schema on every
input whose type graph is well-founded (no self-reference); a nil input
and every unsupported kind yield the opaque object placeholder.  On
self-referential record types it does not terminate (see counterexample). -/
theorem c2_reflect_total_on_wellfounded_types :
    (∀ (env : TypeEnv) (t : TypeId), Acc (refStep env) t →
      ∃ n s, reflectToJSONSchemaF env n (some t) = some s) ∧
    (∀ (env : TypeEnv) (fuel : Nat), reflectToJSONSchemaF env fuel none = some objectSchema) ∧
    (∀ (env : TypeEnv) (fuel : Nat) (t : TypeId), env t = TypeBody.other →
      typeToSchemaF env (fuel + 1) t = some objectSchema) := by
  refine ⟨fun env t hacc => reflectToJSONSchemaF_exists t hacc, fun env fuel => rfl, ?_⟩
  intro env fuel t henv
  simp [typeToSchemaF, henv]

/-- C2 witness: the amended theorem applied to a concrete acyclic type
(a sequence of strings) and a concrete unsupported kind. -/
theorem c2_reflect_total_witness :
    (∃ n s, reflectToJSONSchemaF accEnv n (some 1) = some s) ∧
    typeToSchemaF envOther 1 5 = some objectSchema := by
  constructor
  · apply c2_reflect_total_on_wellfounded_types.1 accEnv 1
    refine Acc.intro 1 ?_
    intro y hy
    have hy0 : y = 0 := by simpa [refStep, accEnv, directRefs] using hy
    subst hy0
    refine Acc.intro 0 ?_
    intro z hz
    simp [refStep, accEnv, directRefs] at hz
  · exact c2_reflect_total_on_wellfounded_types.2.2 envOther 0 5 rfl

/-- C1: the code assigns the zero placeholder, not the parsed literal, as
the `default` of an integer-typed field — `default=50` stores 0 — and the
zero float for a number-typed field.  This evaluates the code at the
failing input; the claim (and the spec) require the parsed literal, so the
code is at fault. -/
theorem c1_default_value_zero_for_integer :
    parseValue "50" "integer" = JVal.int 0 ∧
    parseValue "1.5" "number" = JVal.float 0 ∧
    parseOpenAPITag "default=50" intSchema [] "f" =
      some ([("type", JVal.str "integer"), ("default", JVal.int 0)], []) ∧
    JVal.int 0 ≠ JVal.int 50 := by
  refine ⟨rfl, rfl, rfl, ?_⟩
  intro h
  injection h with h2
  exact absurd h2 (by decide)

/-- C3 counterexample: a record field of type pointer-to-string receives the
opaque object schema, not the string schema, because `typeToSchema` has no
pointer case and recursion into fields does not dereference. -/
theorem c3_pointer_field_gets_object_schema :
    typeToSchemaF ptrFieldEnv 3 2 =
      some [("type", JVal.str "object"),
            ("properties", JVal.obj [("name", JVal.obj objectSchema)])] ∧
    objectSchema ≠ strSchema := by
  refine ⟨rfl, ?_⟩
  intro h
  exact absurd (congrArg schemaTypeStr h) (by decide)

/-- C3 amended: only the top-level entry point dereferences indirection, and
it strips every level of pointer, not exactly one; the recursive dispatch
maps the pointer kind itself to the opaque object placeholder, so a record
field of pointer type receives that placeholder as its base schema. -/
theorem c3_pointer_dispatch_amended :
    (∀ (env : TypeEnv) (fuel : Nat) (t e : TypeId), env t = TypeBody.ptr e →
      derefPtrF env (fuel + 1) t = derefPtrF env fuel e) ∧
    (∀ (env : TypeEnv) (fuel : Nat) (t : TypeId), (∀ e, env t ≠ TypeBody.ptr e) →
      derefPtrF env (fuel + 1) t = some t) ∧
    (∀ (env : TypeEnv) (fuel : Nat) (t e : TypeId), env t = TypeBody.ptr e →
      typeToSchemaF env (fuel + 1) t = some objectSchema) := by
  refine ⟨?_, ?_, ?_⟩
  · intro env fuel t e henv
    simp [derefPtrF, henv]
  · intro env fuel t hnp
    cases henv : env t
    case ptr e => exact absurd henv (hnp e)
    all_goals simp [derefPtrF, henv]
  · intro env fuel t e henv
    simp [typeToSchemaF, henv]

/-- C3 witness: the amended theorem at the concrete pointer chain of the
counterexample environment. -/
theorem c3_pointer_dispatch_witness :
    derefPtrF ptrFieldEnv 2 1 = derefPtrF ptrFieldEnv 1 0 ∧
    derefPtrF ptrFieldEnv 1 0 = some 0 ∧
    typeToSchemaF ptrFieldEnv 1 1 = some objectSchema := by
  refine ⟨c3_pointer_dispatch_amended.1 ptrFieldEnv 1 1 0 rfl,
          c3_pointer_dispatch_amended.2.1 ptrFieldEnv 0 0 ?_,
          c3_pointer_dispatch_amended.2.2 ptrFieldEnv 0 1 0 rfl⟩
  intro e he
  simp [ptrFieldEnv] at he

/-- C6: annotation parsing drops tokens with unrecognized keys and
malformed tokens (no separator) silently and with no effect on the output;
it never errors on a field schema that carries a `type` entry (as every
schema produced by the reflector does); and the claimed example computes
exactly as stated, with no `bogus` key in the result. -/
theorem c6_tag_junk_dropped :
    (∀ (fn : String) (parts : List String) (s : Schema) (req : List String),
      parseParts fn (parts.filter (fun p => !(junkPart p))) s req =
        parseParts fn parts s req) ∧
    (∀ (fn tag : String) (s : Schema) (req : List String),
      (∃ ty, lookupA "type" s = some (JVal.str ty)) →
      (parseOpenAPITag tag s req fn).isSome) ∧
    parseOpenAPITag "required,min=1,bogus=xyz" strSchema [] "field" =
      some ([("type", JVal.str "string"), ("minimum", JVal.int 1)], ["field"]) ∧
    lookupA "bogus" [("type", JVal.str "string"), ("minimum", JVal.int 1)] = none := by
  exact ⟨fun fn parts s req => parseParts_filter_junk parts s req,
         fun fn tag s req hty => parseParts_isSome fn (splitChar ',' tag) s req hty,
         rfl, rfl⟩

/-- C6 witness: the never-errors clause at a concrete annotation and
schema. -/
theorem c6_tag_junk_dropped_witness :
    (parseOpenAPITag "default=5,zz" strSchema [] "f").isSome = true :=
  c6_tag_junk_dropped.2.1 "f" "default=5,zz" strSchema [] ⟨"string", rfl⟩

/-- C7 counterexample: the integer scan of `fmt.Sscanf "%d"` succeeds on the
digit prefix of "1.5", so parseNumber stores the integer 1, not the float
1.5 the claim promises. -/
theorem c7_int_prefix_parsed :
    parseNumber "1.5" = JVal.int 1 ∧ JVal.int 1 ≠ JVal.float (3 / 2 : Rat) := by
  refine ⟨rfl, ?_⟩
  intro h
  exact JVal.noConfusion h

/-- C7 amended: a numeric bound string is scanned as an integer first, and
that scan succeeds on any leading optionally-signed digit run — so "1.5"
stores the integer 1; only when the integer scan fails is the string
scanned as a float (".5" stores 0.5); when both scans fail the literal
string is kept ("abc"); no input is an error. -/
theorem c7_number_parsing_amended :
    (∀ (s : String) (n : Int), goScanInt s = some n → parseNumber s = JVal.int n) ∧
    (∀ (s : String) (q : Rat), goScanInt s = none → goScanFloat s = some q →
      parseNumber s = JVal.float q) ∧
    (∀ s : String, goScanInt s = none → goScanFloat s = none →
      parseNumber s = JVal.str s) ∧
    parseNumber "1.5" = JVal.int 1 ∧
    parseNumber ".5" = JVal.float (1 / 2 : Rat) ∧
    parseNumber "abc" = JVal.str "abc" := by
  refine ⟨?_, ?_, ?_, rfl, ?_, rfl⟩
  · intro s n h
    simp [parseNumber, parseIntHelper, h]
  · intro s q h1 h2
    simp [parseNumber, parseIntHelper, parseFloatHelper, h1, h2]
  · intro s h1 h2
    simp [parseNumber, parseIntHelper, parseFloatHelper, h1, h2]
  · have h : parseNumber ".5" = JVal.float ((5 : Rat) / 10 ^ 1) := rfl
    rw [h]
    norm_num

/-- C7 witness: the amended scan-order clauses at concrete inputs. -/
theorem c7_number_parsing_witness :
    parseNumber "7" = JVal.int 7 ∧ parseNumber "x" = JVal.str "x" :=
  ⟨c7_number_parsing_amended.1 "7" 7 rfl, c7_number_parsing_amended.2.2.1 "x" rfl rfl⟩

/-! ### Struct schema shape (C5) -/

theorem structSchema_properties (props : Schema) (req : List String) :
    lookupA "properties" (structSchema props req) = some (JVal.obj props) := by
  by_cases h : req.length > 0
  · simp only [structSchema, if_pos h]
    rfl
  · simp only [structSchema, if_neg h]
    rfl

theorem structSchema_required (props : Schema) (req : List String) :
    lookupA "required" (structSchema props req) =
      (if req.length > 0 then some (JVal.arr (req.map JVal.str)) else none) := by
  by_cases h : req.length > 0
  · simp only [structSchema, if_pos h]
    rfl
  · simp only [structSchema, if_neg h]
    rfl

theorem requiredOfFields_cons (f : FieldInfo) (fs : List FieldInfo) :
    requiredOfFields (f :: fs) =
      (if fieldVisible f = true then
        List.replicate (fieldRequiredCount f) (fieldName f) else []) ++
      requiredOfFields fs := rfl

theorem visibleNames_cons_vis {f : FieldInfo} (fs : List FieldInfo)
    (hv : fieldVisible f = true) :
    visibleNames (f :: fs) = fieldName f :: visibleNames fs := by
  simp [visibleNames, List.filter_cons, hv]

theorem visibleNames_cons_invis {f : FieldInfo} (fs : List FieldInfo)
    (hv : fieldVisible f = false) :
    visibleNames (f :: fs) = visibleNames fs := by
  simp [visibleNames, List.filter_cons, hv]

theorem structFieldsF_req {env : TypeEnv} : ∀ (fields : List FieldInfo) (fuel : Nat)
    (props : Schema) (req : List String) (out : Schema × List String),
    structFieldsF env fuel fields props req = some out →
    out.2 = req ++ requiredOfFields fields := by
  intro fields
  induction fields with
  | nil =>
    intro fuel props req out h
    cases fuel with
    | zero => exact Option.noConfusion h
    | succ n =>
      simp only [structFieldsF, Option.some.injEq] at h
      simp [← h, requiredOfFields]
  | cons f fs ih =>
    intro fuel props req out h
    cases fuel with
    | zero => exact Option.noConfusion h
    | succ n =>
      simp only [structFieldsF] at h
      by_cases hv : fieldVisible f = true
      · simp only [hv, if_true] at h
        cases hts : typeToSchemaF env n f.type with
        | none => rw [hts] at h; exact Option.noConfusion h
        | some fS =>
          rw [hts] at h
          simp only [Option.some_bind] at h
          cases hp : (if f.openapiTag != "" then
              parseOpenAPITag f.openapiTag fS req (fieldName f)
            else some (fS, req)) with
          | none => rw [hp] at h; exact Option.noConfusion h
          | some st =>
            rw [hp] at h
            simp only [Option.some_bind] at h
            have h2 := ih n _ st.2 out h
            have h3 : st.2 = req ++ List.replicate (fieldRequiredCount f) (fieldName f) := by
              revert hp
              split
              · intro hp
                exact parseParts_snd _ _ _ _ hp
              · next hne =>
                intro hp
                injection hp with hp2
                have htag : f.openapiTag = "" := by simpa using hne
                have h0 : requiredCount (splitChar ',' "") = 0 := rfl
                rw [← hp2]
                simp [fieldRequiredCount, htag, h0]
            rw [h2, h3, requiredOfFields_cons, hv, if_pos rfl, List.append_assoc]
      · have hv' : fieldVisible f = false := by revert hv; cases fieldVisible f <;> simp
        simp only [hv', Bool.false_eq_true, if_false] at h
        rw [ih _ _ _ _ h, requiredOfFields_cons, hv']
        simp

theorem structFieldsF_props {env : TypeEnv} : ∀ (fields : List FieldInfo) (fuel : Nat)
    (props : Schema) (req : List String) (out : Schema × List String),
    (visibleNames fields).Nodup →
    (∀ nm ∈ visibleNames fields, lookupA nm props = none) →
    structFieldsF env fuel fields props req = some out →
    out.1.map Prod.fst = props.map Prod.fst ++ visibleNames fields := by
  intro fields
  induction fields with
  | nil =>
    intro fuel props req out _ _ h
    cases fuel with
    | zero => exact Option.noConfusion h
    | succ n =>
      simp only [structFieldsF, Option.some.injEq] at h
      simp [← h, visibleNames]
  | cons f fs ih =>
    intro fuel props req out hnodup hlk h
    cases fuel with
    | zero => exact Option.noConfusion h
    | succ n =>
      simp only [structFieldsF] at h
      by_cases hv : fieldVisible f = true
      · rw [visibleNames_cons_vis fs hv] at hnodup hlk ⊢
        obtain ⟨hno1, hno2⟩ := List.nodup_cons.mp hnodup
        simp only [hv, if_true] at h
        cases hts : typeToSchemaF env n f.type with
        | none => rw [hts] at h; exact Option.noConfusion h
        | some fS =>
          rw [hts] at h
          simp only [Option.some_bind] at h
          cases hp : (if f.openapiTag != "" then
              parseOpenAPITag f.openapiTag fS req (fieldName f)
            else some (fS, req)) with
          | none => rw [hp] at h; exact Option.noConfusion h
          | some st =>
            rw [hp] at h
            simp only [Option.some_bind] at h
            have hlkf : lookupA (fieldName f) props = none := hlk _ (by simp)
            have hlk2 : ∀ nm ∈ visibleNames fs,
                lookupA nm (insertA (fieldName f)
                  (JVal.obj (if f.docTag != "" then
                    insertA "description" (JVal.str f.docTag) st.1 else st.1)) props) = none := by
              intro nm hnm
              rw [lookupA_insertA_ne (fun he => hno1 (by rw [he]; exact hnm))]
              exact hlk nm (by simp [hnm])
            have h2 := ih n _ st.2 out hno2 hlk2 h
            rw [h2, keys_insertA _ hlkf, List.append_assoc]
            simp
      · have hv' : fieldVisible f = false := by revert hv; cases fieldVisible f <;> simp
        rw [visibleNames_cons_invis fs hv'] at hnodup hlk ⊢
        simp only [hv', Bool.false_eq_true, if_false] at h
        exact ih _ _ _ _ hnodup hlk h

theorem requiredOfFields_eq_requiredNames : ∀ fields : List FieldInfo,
    (∀ f ∈ fields, fieldRequiredCount f ≤ 1) →
    requiredOfFields fields = requiredNames fields := by
  intro fields
  induction fields with
  | nil => intro _; rfl
  | cons f fs ih =>
    intro hall
    have hrn : requiredNames (f :: fs) =
        (if (fieldVisible f && decide (fieldRequiredCount f ≠ 0)) = true then
          [fieldName f] else []) ++ requiredNames fs := by
      simp only [requiredNames, List.filter_cons]
      split <;> simp_all
    rw [requiredOfFields_cons, hrn, ih (fun g hg => hall g (by simp [hg]))]
    congr 1
    have hc := hall f (by simp)
    by_cases hv : fieldVisible f = true
    · rcases Nat.le_one_iff_eq_zero_or_eq_one.mp hc with h0 | h1
      · simp [hv, h0]
      · simp [hv, h1]
    · have hv' : fieldVisible f = false := by revert hv; cases fieldVisible f <;> simp
      simp [hv']

/-- C5 counterexample: a record with N = 2 visible serialization-named
fields that share the name `a` yields a schema with a single properties
entry — the later field overwrites the earlier map entry — refuting
"exactly N entries in properties". -/
theorem c5_duplicate_names_collapse :
    typeToSchemaF dupEnv 9 9 =
      some [("type", JVal.str "object"),
            ("properties", JVal.obj [("a", JVal.obj strSchema)])] ∧
    (dupFields.filter fieldVisible).length = 2 ∧
    [("a", JVal.obj strSchema)].length = 1 := ⟨rfl, rfl, rfl⟩

/-- C5 amended: for a record type whose visible serialization names are
pairwise distinct and whose fields carry the bare required token at most
once each, the schema has exactly one properties entry per visible named
field, in declaration order, and a required list of exactly the names of
the required-carrying fields, present only when that list is nonempty.
Duplicate serialization names overwrite earlier properties entries, and a
repeated required token duplicates its entry, so both hypotheses are
needed. -/
theorem c5_struct_schema_shape_amended (env : TypeEnv) (fuel : Nat) (t : TypeId)
    (fields : List FieldInfo) (s : Schema)
    (henv : env t = TypeBody.struct fields)
    (hnodup : (visibleNames fields).Nodup)
    (honce : ∀ f ∈ fields, fieldRequiredCount f ≤ 1)
    (h : typeToSchemaF env (fuel + 1) t = some s) :
    ∃ props, lookupA "properties" s = some (JVal.obj props) ∧
      props.map Prod.fst = visibleNames fields ∧
      props.length = (fields.filter fieldVisible).length ∧
      lookupA "required" s =
        (if (requiredNames fields).length > 0 then
          some (JVal.arr ((requiredNames fields).map JVal.str)) else none) := by
  simp only [typeToSchemaF, henv] at h
  cases hsf : structFieldsF env fuel fields [] [] with
  | none => rw [hsf] at h; exact Option.noConfusion h
  | some pr =>
    rw [hsf] at h
    simp only [Option.map_some', Option.some.injEq] at h
    subst h
    have hkeys := structFieldsF_props fields fuel [] [] pr hnodup
      (fun nm _ => rfl) hsf
    have hreq := structFieldsF_req fields fuel [] [] pr hsf
    rw [requiredOfFields_eq_requiredNames fields honce] at hreq
    simp only [List.map_nil, List.nil_append] at hkeys hreq
    refine ⟨pr.1, structSchema_properties pr.1 pr.2, hkeys, ?_, ?_⟩
    · have hlen := congrArg List.length hkeys
      simpa [visibleNames] using hlen
    · rw [structSchema_required, hreq]

/-- C5 witness: the amended theorem at a concrete two-field record with one
required field. -/
theorem c5_struct_schema_shape_witness :
    ∃ props,
      lookupA "properties"
        [("type", JVal.str "object"),
         ("properties", JVal.obj [("a", JVal.obj strSchema), ("b", JVal.obj strSchema)]),
         ("required", JVal.arr [JVal.str "a"])] = some (JVal.obj props) ∧
      props.map Prod.fst = visibleNames c5Fields ∧
      props.length = (c5Fields.filter fieldVisible).length ∧
      lookupA "required"
        [("type", JVal.str "object"),
         ("properties", JVal.obj [("a", JVal.obj strSchema), ("b", JVal.obj strSchema)]),
         ("required", JVal.arr [JVal.str "a"])] =
        (if (requiredNames c5Fields).length > 0 then
          some (JVal.arr ((requiredNames c5Fields).map JVal.str)) else none) :=
  c5_struct_schema_shape_amended c5Env 8 9 c5Fields _ rfl (by decide) (by decide) rfl

/-! ### Response mapping (C4) -/

/-- C4 counterexample: a response declared under the unassigned status code
599 is keyed by the empty string — the raw `http.StatusText` value used as
the map key — not by the word "Response", which replaces the description
only. -/
theorem c4_unrecognized_code_key_empty :
    (endpointToOperation recEnv 9 c4BadEndpoint []).map (fun pr => pr.1.responses) =
      some [("", { description := "Response",
                   content := some [("application/json", { schema := strSchema })] })] ∧
    ("" : String) ≠ "Response" :=
  ⟨rfl, by decide⟩

/-- C4 amended: every declared response is keyed by the raw status phrase
of its numeric code — the empty string when the code is unrecognized, the
word "Response" replacing only the description; a string response value
becomes the description with no content entry; a non-nil non-string value
is reflected into a schema under the application/json content key.  The
claimed 201/400 example holds as stated. -/
theorem c4_response_mapping_amended :
    (∀ (env : TypeEnv) (fuel : Nat) (code : Nat) (d : String),
      buildResponse env fuel code (RespVal.str d) =
        some (statusText code, { description := d, content := none })) ∧
    (∀ (env : TypeEnv) (fuel : Nat) (code : Nat) (t : TypeId) (s : Schema),
      reflectToJSONSchemaF env fuel (some t) = some s →
      buildResponse env fuel code (RespVal.typ t) =
        some (statusText code,
          { description := if statusText code = "" then "Response" else statusText code,
            content := some [("application/json", { schema := s })] })) ∧
    ((endpointToOperation recEnv 9 c4Endpoint []).map (fun pr =>
        (lookupA "Created" pr.1.responses, lookupA "Bad Request" pr.1.responses)) =
      some (some { description := "Created",
                   content := some [("application/json",
                     { schema := [("type", JVal.str "object"),
                                  ("properties", JVal.obj [("id", JVal.obj strSchema)])] })] },
            some { description := "Invalid request", content := none })) := by
  refine ⟨fun env fuel code d => rfl, ?_, rfl⟩
  intro env fuel code t s h
  simp [buildResponse, h]

/-- C4 witness: the reflected-response clause of the amended theorem at the
unrecognized code 599. -/
theorem c4_response_mapping_witness :
    buildResponse recEnv 9 599 (RespVal.typ 1) =
      some ("", { description := "Response",
                  content := some [("application/json", { schema := strSchema })] }) :=
  c4_response_mapping_amended.2.1 recEnv 9 599 1 strSchema rfl

/-! ### Document generation (C8, C9, C10) -/

/-- C9: with zero registered endpoints both generators succeed: the OpenAPI
document has an empty paths map, an empty schemas map and exactly the two
pre-seeded security schemes (mTLS and Bearer with their fixed
descriptions), and the API description has an empty endpoints sequence. -/
theorem c9_empty_registry_minimal_document (env : TypeEnv) (fuel : Nat)
    (info : OpenAPIInfo) (baseURL : String) :
    GenerateOpenAPI env fuel { endpoints := [], info := info, baseURL := baseURL } =
      some { openapi := "3.0.0", info := info, servers := [baseURL], paths := [],
             schemas := [],
             securitySchemes := [("mTLS", mTLSScheme), ("Bearer", bearerScheme)] } ∧
    GenerateAPIDescription env fuel { endpoints := [], info := info, baseURL := baseURL } =
      some { serviceName := info.title, version := info.version, baseURL := baseURL,
             endpoints := [] } :=
  ⟨rfl, rfl⟩

theorem endpointToOperation_schemas {env : TypeEnv} {fuel : Nat} {e : EndpointConfig}
    {sm : SchemasMap} {o : Operation × SchemasMap}
    (h : endpointToOperation env fuel e sm = some o) : o.2 = sm := by
  cases hrb : e.requestBody with
  | none =>
    simp only [endpointToOperation, hrb, Option.map_eq_some'] at h
    obtain ⟨resp, h1, h2⟩ := h
    rw [← h2]
  | some t =>
    simp only [endpointToOperation, hrb, Option.bind_eq_some, Option.map_eq_some'] at h
    obtain ⟨s, hs, resp, h1, h2⟩ := h
    rw [← h2]

theorem pathsFold_schemas {env : TypeEnv} {fuel : Nat} : ∀ (es : List EndpointConfig)
    (paths : List (String × PathItem)) (sm : SchemasMap)
    (out : List (String × PathItem) × SchemasMap),
    pathsFold env fuel es paths sm = some out → out.2 = sm := by
  intro es
  induction es with
  | nil =>
    intro paths sm out h
    simp only [pathsFold, Option.some.injEq] at h
    rw [← h]
  | cons e rest ih =>
    intro paths sm out h
    simp only [pathsFold] at h
    cases ho : endpointToOperation env fuel e sm with
    | none => rw [ho] at h; exact Option.noConfusion h
    | some osch =>
      rw [ho] at h
      simp only [Option.some_bind] at h
      rw [ih _ _ _ h, endpointToOperation_schemas ho]

/-- C10: the components.schemas map of every generated document is empty:
the shared accumulator is threaded through operation building unchanged —
the source receives it but never writes to it — so the final map equals the
initial empty map and every request/response schema is inlined inside its
operation. -/
theorem c10_components_schemas_empty (env : TypeEnv) (fuel : Nat) (reg : Registry)
    (spec : OpenAPISpec) (h : GenerateOpenAPI env fuel reg = some spec) :
    spec.schemas = [] := by
  simp only [GenerateOpenAPI, Option.map_eq_some'] at h
  obtain ⟨pr, h1, h2⟩ := h
  rw [← h2]
  exact pathsFold_schemas _ _ _ _ h1

/-- C10 witness: the theorem at a concrete registry holding one endpoint
with a reflected response. -/
theorem c10_components_schemas_empty_witness :
    ∃ spec, GenerateOpenAPI recEnv 9 c10Reg = some spec ∧ spec.schemas = [] :=
  ⟨_, rfl, c10_components_schemas_empty recEnv 9 c10Reg _ rfl⟩

theorem assignMethod_unrecognized {m : String} (hm : recognizedMethod m = false)
    (item : PathItem) (op : Operation) : assignMethod item m op = item := by
  simp only [recognizedMethod, Bool.or_eq_false_iff, beq_eq_false_iff_ne, ne_eq] at hm
  obtain ⟨⟨⟨⟨h1, h2⟩, h3⟩, h4⟩, h5⟩ := hm
  simp [assignMethod, h1, h2, h3, h4, h5]

theorem pathsFold_append {env : TypeEnv} {fuel : Nat} : ∀ (as bs : List EndpointConfig)
    (paths : List (String × PathItem)) (sm : SchemasMap),
    pathsFold env fuel (as ++ bs) paths sm =
      (pathsFold env fuel as paths sm).bind fun pr => pathsFold env fuel bs pr.1 pr.2 := by
  intro as
  induction as with
  | nil => intro bs paths sm; simp [pathsFold]
  | cons e rest ih =>
    intro bs paths sm
    simp only [List.cons_append, pathsFold]
    cases ho : endpointToOperation env fuel e sm with
    | none => simp
    | some osch =>
      simp only [Option.some_bind]
      exact ih bs _ _

theorem pathsFold_unrec_congr {env : TypeEnv} {fuel : Nat} {p : String} :
    ∀ (es : List EndpointConfig) (m1 m2 : List (String × PathItem)) (sm : SchemasMap)
      (out1 : List (String × PathItem) × SchemasMap),
    (∀ q, q ≠ p → lookupA q m1 = lookupA q m2) →
    lookupA p m1 = some ((lookupA p m2).getD emptyPathItem) →
    pathsFold env fuel es m1 sm = some out1 →
    ∃ out2, pathsFold env fuel es m2 sm = some out2 ∧
      (∀ q, q ≠ p → lookupA q out1.1 = lookupA q out2.1) ∧
      lookupA p out1.1 = some ((lookupA p out2.1).getD emptyPathItem) ∧
      out1.2 = out2.2 := by
  intro es
  induction es with
  | nil =>
    intro m1 m2 sm out1 hne hp h
    simp only [pathsFold, Option.some.injEq] at h
    exact ⟨(m2, sm), rfl, by rw [← h]; exact hne, by rw [← h]; exact hp, by rw [← h]⟩
  | cons e rest ih =>
    intro m1 m2 sm out1 hne hp h
    simp only [pathsFold] at h ⊢
    cases ho : endpointToOperation env fuel e sm with
    | none =>
      simp only [ho, Option.none_bind] at h
      exact Option.noConfusion h
    | some osch =>
      simp only [ho, Option.some_bind] at h ⊢
      have hgetD : (lookupA e.path m1).getD emptyPathItem =
          (lookupA e.path m2).getD emptyPathItem := by
        by_cases hq : e.path = p
        · rw [hq, hp]
          cases lookupA p m2 <;> rfl
        · rw [hne e.path hq]
      rw [hgetD] at h
      apply ih _ _ _ _ ?_ ?_ h
      · intro q hq
        by_cases hqe : q = e.path
        · subst hqe
          rw [lookupA_insertA_self, lookupA_insertA_self]
        · rw [lookupA_insertA_ne (Ne.symm hqe), lookupA_insertA_ne (Ne.symm hqe)]
          exact hne q hq
      · by_cases hpe : p = e.path
        · subst hpe
          rw [lookupA_insertA_self, lookupA_insertA_self]
          rfl
        · rw [lookupA_insertA_ne (fun he => hpe he.symm),
              lookupA_insertA_ne (fun he => hpe he.symm)]
          exact hp

/-- C8 counterexample: an endpoint with the unrecognized method FOO still
creates an entry for its path — an empty path item — so the generated
document is not identical to the one generated without that endpoint. -/
theorem c8_unrecognized_method_creates_path_entry :
    (GenerateOpenAPI envOther 1 c8Reg).map (fun spec => lookupA "/x" spec.paths) =
      some (some emptyPathItem) ∧
    (GenerateOpenAPI envOther 1 c8EmptyReg).map (fun spec => lookupA "/x" spec.paths) =
      some none :=
  ⟨rfl, rfl⟩

/-- C8 amended: an endpoint with an unrecognized method contributes no
operation (its operation is computed and discarded, filling no method
slot), but the generation loop still stores a path item under its path: the
document equals the one generated from the registry without that endpoint
in every component and at every other path, while at its own path an entry
is guaranteed present, holding the path item the other endpoints produce
(or the empty item). -/
theorem c8_unrecognized_method_amended (env : TypeEnv) (fuel : Nat)
    (info : OpenAPIInfo) (baseURL : String) (es1 es2 : List EndpointConfig)
    (e : EndpointConfig) (spec : OpenAPISpec)
    (hm : recognizedMethod e.method = false)
    (h : GenerateOpenAPI env fuel
      { endpoints := es1 ++ e :: es2, info := info, baseURL := baseURL } = some spec) :
    ∃ spec2, GenerateOpenAPI env fuel
        { endpoints := es1 ++ es2, info := info, baseURL := baseURL } = some spec2 ∧
      spec.openapi = spec2.openapi ∧ spec.info = spec2.info ∧
      spec.servers = spec2.servers ∧ spec.schemas = spec2.schemas ∧
      spec.securitySchemes = spec2.securitySchemes ∧
      (∀ q, q ≠ e.path → lookupA q spec.paths = lookupA q spec2.paths) ∧
      lookupA e.path spec.paths =
        some ((lookupA e.path spec2.paths).getD emptyPathItem) := by
  simp only [GenerateOpenAPI, Option.map_eq_some'] at h
  obtain ⟨pr, hfold, hspec⟩ := h
  rw [pathsFold_append] at hfold
  cases h0 : pathsFold env fuel es1 [] [] with
  | none => rw [h0] at hfold; exact Option.noConfusion hfold
  | some m0 =>
    rw [h0] at hfold
    simp only [Option.some_bind] at hfold
    simp only [pathsFold] at hfold
    cases ho : endpointToOperation env fuel e m0.2 with
    | none => rw [ho] at hfold; exact Option.noConfusion hfold
    | some osch =>
      rw [ho] at hfold
      simp only [Option.some_bind] at hfold
      rw [assignMethod_unrecognized hm] at hfold
      rw [endpointToOperation_schemas ho] at hfold
      have hne0 : ∀ q, q ≠ e.path →
          lookupA q (insertA e.path
            ((lookupA e.path m0.1).getD emptyPathItem) m0.1) = lookupA q m0.1 :=
        fun q hq => lookupA_insertA_ne (Ne.symm hq) _ _
      have hp0 : lookupA e.path (insertA e.path
          ((lookupA e.path m0.1).getD emptyPathItem) m0.1) =
          some ((lookupA e.path m0.1).getD emptyPathItem) :=
        lookupA_insertA_self _ _ _
      obtain ⟨out2, hfold2, hrelne, hrelp, hsmeq⟩ :=
        pathsFold_unrec_congr es2 _ m0.1 m0.2 pr hne0 hp0 hfold
      refine ⟨{ openapi := "3.0.0", info := info, servers := [baseURL],
                paths := out2.1, schemas := out2.2,
                securitySchemes :=
                  insertA "Bearer" bearerScheme (insertA "mTLS" mTLSScheme []) },
              ?_, ?_, ?_, ?_, ?_, ?_, ?_, ?_⟩
      · simp only [GenerateOpenAPI, pathsFold_append, h0, Option.some_bind, hfold2,
          Option.map_some']
      · rw [← hspec]
      · rw [← hspec]
      · rw [← hspec]
      · rw [← hspec]; exact hsmeq
      · rw [← hspec]
      · rw [← hspec]; exact hrelne
      · rw [← hspec]; exact hrelp

/-- C8 witness: the amended theorem at a concrete one-endpoint registry
whose only endpoint uses the method FOO. -/
theorem c8_unrecognized_method_witness :
    ∃ spec2, GenerateOpenAPI envOther 1
        { endpoints := [] ++ [], info := {}, baseURL := "" } = some spec2 ∧
      "3.0.0" = spec2.openapi ∧ ({} : OpenAPIInfo) = spec2.info ∧
      [""] = spec2.servers ∧ ([] : SchemasMap) = spec2.schemas ∧
      [("mTLS", mTLSScheme), ("Bearer", bearerScheme)] = spec2.securitySchemes ∧
      (∀ q, q ≠ fooEndpoint.path →
        lookupA q [("/x", emptyPathItem)] = lookupA q spec2.paths) ∧
      lookupA fooEndpoint.path [("/x", emptyPathItem)] =
        some ((lookupA fooEndpoint.path spec2.paths).getD emptyPathItem) := by
  have h := c8_unrecognized_method_amended envOther 1 {} "" [] []
    fooEndpoint
    { openapi := "3.0.0", info := {}, servers := [""],
      paths := [("/x", emptyPathItem)], schemas := [],
      securitySchemes := [("mTLS", mTLSScheme), ("Bearer", bearerScheme)] }
    rfl rfl
  exact h

end Apidoc
